import Mathlib

/-!
Verification of the jobsearch repository's core pipeline against its
natural-language specification.  Python modules are shallowly embedded:
pure string manipulation becomes Lean functions on `String`/`List Char`,
JSON values become the inductive `PyVal`, fallible operations return
`Except`, and the external collaborators (the text-completion service,
the profile-search backend, the PDF text extractor, the filesystem)
are passed in as explicit oracle parameters.
-/

namespace JobSearch

/-! ## String primitives

The Python string operations the modules use are given executable
list-based definitions (the core library's `String.toLower`, `trim`,
`replace`, `take` are position-loop based and do not reduce inside the
kernel).  Python's `\s`/`str.strip` whitespace is modelled by
`Char.isWhitespace`; `str.lower` is modelled on the ASCII range the
repository's vocabularies use. -/

/-- Python `str.lower` (ASCII range). -/
def strLower (s : String) : String := String.mk (s.toList.map Char.toLower)

/-- Python `str.strip()`: whitespace removed from both ends. -/
def pyStrip (s : String) : String :=
  String.mk
    (((s.toList.dropWhile Char.isWhitespace).reverse.dropWhile Char.isWhitespace).reverse)

/-- Python `needle in hay` on strings (the empty needle is always
found, as in Python). -/
def hasSubstr (hay needle : List Char) : Bool :=
  if needle.isPrefixOf hay then true
  else
    match hay with
    | [] => false
    | _ :: t => hasSubstr t needle

/-- Python `s.replace(pat, sub)` for a non-empty pattern:
non-overlapping left-to-right replacement.  The fuel argument (always
at least the text length) makes the recursion structural. -/
def replaceAllGo (pat sub : List Char) : Nat → List Char → List Char
  | _, [] => []
  | 0, cs => cs
  | fuel + 1, c :: t =>
      if pat.isPrefixOf (c :: t) ∧ pat ≠ [] then
        sub ++ replaceAllGo pat sub fuel ((c :: t).drop pat.length)
      else c :: replaceAllGo pat sub fuel t

def replaceAll (s pat sub : String) : String :=
  String.mk (replaceAllGo pat.toList sub.toList s.toList.length s.toList)

/-- Python `text.split("\n")`. -/
def splitLinesGo (acc : List Char) : List Char → List String
  | [] => [String.mk acc.reverse]
  | c :: t =>
      if c = '\n' then String.mk acc.reverse :: splitLinesGo [] t
      else splitLinesGo (c :: acc) t

def pyLines (s : String) : List String := splitLinesGo [] s.toList

/-- Python `list(set(...))`, modelled as first-occurrence
deduplication (CPython's set iteration order is hash-driven; no claim
depends on the order). -/
def dedupFirstGo (seen : List String) : List String → List String
  | [] => []
  | x :: t =>
      if seen.contains x then dedupFirstGo seen t
      else x :: dedupFirstGo (seen ++ [x]) t

def dedupFirst (l : List String) : List String := dedupFirstGo [] l

/-! ## A model of Python/JSON values

`PyVal` models the values that `json.loads` can produce and that the
modules pass around: `None`, strings, integers, lists and dicts
(JSON numbers are modelled as integers; the repository never relies on
fractional values).  Dicts keep insertion order, as Python dicts do. -/

inductive PyVal where
  | none : PyVal
  | str (s : String) : PyVal
  | int (n : Int) : PyVal
  | list (xs : List PyVal) : PyVal
  | dict (kvs : List (String × PyVal)) : PyVal
deriving Repr, BEq

/-- Runtime errors the embedded Python fragments can raise. -/
inductive PyErr where
  | typeErr : PyErr
  | keyErr : PyErr
  | valueErr : PyErr
  | attrErr : PyErr
deriving Repr, DecidableEq

/-- Python `len`: defined for strings, lists and dicts, a `TypeError`
otherwise. -/
def pyLen : PyVal → Except PyErr Nat
  | .str s => .ok s.length
  | .list xs => .ok xs.length
  | .dict kvs => .ok kvs.length
  | _ => .error .typeErr

/-- Python's `k in v` for a string key `k`: key membership on dicts,
element membership on lists, substring test on strings, `TypeError`
otherwise. -/
def pyContains (v : PyVal) (k : String) : Except PyErr Bool :=
  match v with
  | .dict kvs => .ok (kvs.any (fun kv => kv.1 = k))
  | .list xs => .ok (xs.contains (.str k))
  | .str s => .ok (hasSubstr s.toList k.toList)
  | _ => .error .typeErr

/-- Python `v[k] = x` for a string key: updates the entry in place if the
key exists (keeping insertion order), appends it otherwise; `TypeError`
on any non-dict. -/
def pySetItem (v : PyVal) (k : String) (x : PyVal) : Except PyErr PyVal :=
  match v with
  | .dict kvs =>
      if kvs.any (fun kv => kv.1 = k) then
        .ok (.dict (kvs.map (fun kv => if kv.1 = k then (k, x) else kv)))
      else
        .ok (.dict (kvs ++ [(k, x)]))
  | _ => .error .typeErr

/-- Python `v[k]` for a string key: dict lookup raising `KeyError` when
absent, `TypeError` on any non-dict (string and list subscripts need
integer keys). -/
def pyGetItem (v : PyVal) (k : String) : Except PyErr PyVal :=
  match v with
  | .dict kvs =>
      match kvs.lookup k with
      | some x => .ok x
      | _ => .error .keyErr
  | _ => .error .typeErr

/-- Python `v.get(k, d)`: only dicts have `.get`; anything else raises
`AttributeError`. -/
def pyDictGetD (v : PyVal) (k : String) (d : PyVal) : Except PyErr PyVal :=
  match v with
  | .dict kvs =>
      match kvs.lookup k with
      | some x => .ok x
      | _ => .ok d
  | _ => .error .attrErr

/-- Python `int(x)` on the value shapes the repository can meet:
integers pass through, strings are parsed (optional surrounding
whitespace, optional sign, at least one digit), everything else is a
`TypeError`.  Underscore digit grouping is not modelled. -/
def pyToInt : PyVal → Except PyErr Int
  | .int n => .ok n
  | .str s =>
      let t := (pyStrip s).toList
      let core := match t with
        | '-' :: r => r
        | '+' :: r => r
        | _ => t
      if core ≠ [] ∧ core.all Char.isDigit then
        let mag : Int := Int.ofNat (core.foldl (fun a c => a * 10 + c.toNat - 48) 0)
        .ok (if t.head? = some '-' then -mag else mag)
      else .error .valueErr
  | _ => .error .typeErr

/-- Python `repr` of a value (element reprs as produced by `str` on
containers).  String escaping inside reprs is not modelled; the
repository never parses reprs back. -/
def pyRepr : PyVal → String
  | .none => "None"
  | .str s => "'" ++ s ++ "'"
  | .int n => toString n
  | .list xs => "[" ++ String.intercalate ", " (xs.attach.map (fun x => pyRepr x.1)) ++ "]"
  | .dict kvs =>
      "\x7b" ++
        String.intercalate ", "
          (kvs.attach.map (fun kv => "'" ++ kv.1.1 ++ "': " ++ pyRepr kv.1.2)) ++
      "\x7d"
decreasing_by
  · have h := List.sizeOf_lt_of_mem x.2
    simp only [PyVal.list.sizeOf_spec]
    omega
  · have h := List.sizeOf_lt_of_mem kv.2
    have h2 : sizeOf kv.1.2 < sizeOf kv.1 := by
      obtain ⟨a, b⟩ := kv.1
      simp only [Prod.mk.sizeOf_spec]
      omega
    simp only [PyVal.dict.sizeOf_spec]
    omega

/-- Python `str(x)`: the string itself on strings, `repr` otherwise. -/
def pyStr : PyVal → String
  | .str s => s
  | v => pyRepr v

mutual

/-- Python `==` on JSON-shaped values: structural value equality. -/
def pyEq : PyVal → PyVal → Bool
  | .none, .none => true
  | .str s, .str t => s == t
  | .int m, .int n => m == n
  | .list xs, .list ys => pyEqL xs ys
  | .dict xs, .dict ys => pyEqKV xs ys
  | _, _ => false

def pyEqL : List PyVal → List PyVal → Bool
  | [], [] => true
  | a :: as, b :: bs => pyEq a b && pyEqL as bs
  | _, _ => false

def pyEqKV : List (String × PyVal) → List (String × PyVal) → Bool
  | [], [] => true
  | kv :: as, lv :: bs => kv.1 == lv.1 && pyEq kv.2 lv.2 && pyEqKV as bs
  | _, _ => false

end

/-! ## The Text Completion Service collaborator

One service call that the modules parse as JSON is modelled by the
result of the call-and-parse pipeline: the outer `Except` is the
transport (`.error` = `anthropic.APIError` raised), the inner one is
`json.loads` on the (fence-stripped) reply text (`.error` = the reply
was not valid JSON). -/

abbrev SvcAttempt := Except Unit (Except Unit PyVal)

/-- Errors that can escape `match_resume_to_jd` / `parse_jd`. -/
inductive CallErr where
  | apiErr : CallErr
  | jsonErr : CallErr
  | runtimeErr (e : PyErr) : CallErr
deriving Repr, DecidableEq

/-! ## matcher.py -/

/-- The generic filler appended to under-length improvement lists
(`matcher.py` line 72). -/
def improvementFiller : String :=
  "Review the full job description for additional requirements"

/-- The `while len(result["improvements"]) < 3: append(filler)` loop of
`matcher.py` lines 71-72, written in closed form: on a list it appends
fillers until length 3; a first iteration on any non-list raises
(`len` a `TypeError` on ints/None, `.append` an `AttributeError` on
strings). -/
def padImprovements (d : PyVal) : Except PyErr PyVal := do
  let imp ← pyGetItem d "improvements"
  let n ← pyLen imp
  if n < 3 then
    match imp with
    | .list xs =>
        pySetItem d "improvements"
          (.list (xs ++ List.replicate (3 - xs.length) (.str improvementFiller)))
    | _ => .error .attrErr
  else
    pure d

/-- The validation block of `matcher.py` lines 66-74: default the match
percentage to 50 when absent, pad the improvements to at least 3
entries, then coerce-and-clamp the percentage into `[0, 100]`. -/
def matchValidate (result : PyVal) : Except PyErr PyVal := do
  let hasMp ← pyContains result "match_percentage"
  let r1 ← if hasMp then pure result else pySetItem result "match_percentage" (.int 50)
  let hasImp ← pyContains r1 "improvements"
  let needPad ←
    if hasImp then do
      let imp ← pyGetItem r1 "improvements"
      let n ← pyLen imp
      pure (decide (n < 3))
    else
      pure true
  let r2 ←
    if needPad then do
      let cur ← pyDictGetD r1 "improvements" (.list [])
      let r2a ← pySetItem r1 "improvements" cur
      padImprovements r2a
    else
      pure r1
  let mp ← pyGetItem r2 "match_percentage"
  let n ← pyToInt mp
  pySetItem r2 "match_percentage" (.int (max 0 (min 100 n)))

/-- `matcher.match_resume_to_jd`, with the two service calls supplied as
oracles.  First attempt: on transport success the parsed reply goes
through the validation block (a JSON parse failure propagates uncaught).
On `anthropic.APIError` the call is retried once and — as in the source,
lines 78-91 — the retry's parsed reply is returned without any
validation; a second `APIError` propagates. -/
def match_resume_to_jd (attempt1 attempt2 : SvcAttempt) : Except CallErr PyVal :=
  match attempt1 with
  | .ok (.error _) => .error .jsonErr
  | .ok (.ok parsed) =>
      match matchValidate parsed with
      | .ok r => .ok r
      | .error e => .error (.runtimeErr e)
  | .error _ =>
      match attempt2 with
      | .error _ => .error .apiErr
      | .ok (.error _) => .error .jsonErr
      | .ok (.ok parsed) => .ok parsed

/-! ## jd_parser.py -/

/-- The schema defaults of `jd_parser.py` lines 56-65, in source order. -/
def jdDefaults : List (String × PyVal) :=
  [ ("job_title", .str "Unknown"),
    ("company_name", .str "Unknown"),
    ("location", .str "Unknown"),
    ("required_skills", .list []),
    ("preferred_skills", .list []),
    ("experience_required", .str "Not specified"),
    ("key_responsibilities", .list []),
    ("domain", .str "Unknown") ]

/-- The schema-completion loop of `jd_parser.py` lines 66-68: each absent
field is filled with its default. -/
def jdComplete (parsed : PyVal) : Except PyErr PyVal :=
  jdDefaults.foldlM
    (fun acc kv => do
      let has ← pyContains acc kv.1
      if has then pure acc else pySetItem acc kv.1 kv.2)
    parsed

/-- `jd_parser.parse_jd` with the two service calls as oracles.  The
first attempt's parsed reply is schema-completed; the retry path
(source lines 72-86) returns the raw parsed reply without completion. -/
def parse_jd (attempt1 attempt2 : SvcAttempt) : Except CallErr PyVal :=
  match attempt1 with
  | .ok (.error _) => .error .jsonErr
  | .ok (.ok parsed) =>
      match jdComplete parsed with
      | .ok r => .ok r
      | .error e => .error (.runtimeErr e)
  | .error _ =>
      match attempt2 with
      | .error _ => .error .apiErr
      | .ok (.error _) => .error .jsonErr
      | .ok (.ok parsed) => .ok parsed

/-! ## excel_handler.py

Worksheet cells are modelled as optional strings (`Option.none` = the
empty cell `None` that openpyxl reports; the tracker's columns hold
text).  Only the three columns the selection logic reads are modelled
per row. -/

/-- One tracker row: column A (job link), column B (JD text),
column C (match percentage). -/
structure TrackRow where
  colA : Option String
  colB : Option String
  colC : Option String
deriving Repr, DecidableEq

/-- The worksheet: the header of column B plus the data rows (Excel rows
2, 3, ...). -/
structure Sheet where
  headerB : Option String
  rows : List TrackRow
deriving Repr, DecidableEq

/-- Python `str(cell_value)` on our cell model. -/
def cellStr : Option String → String
  | some s => s
  | Option.none => "None"

/-- Python truthiness of a cell value: `None` and `""` are falsy. -/
def cellTruthy : Option String → Bool
  | some s => s ≠ ""
  | Option.none => false

/-- `_migrate_columns_if_needed`'s trigger (excel_handler.py lines
74-76): no migration exactly when the header cell is truthy and its
stripped, lowercased text is `"jd text"`. -/
def migrationNeeded (h : Option String) : Bool :=
  match h with
  | some s => !(s ≠ "" && strLower (pyStrip s) = "jd text")
  | Option.none => true

/-- The column shift `ws.insert_cols(2)` performs on a data row: a fresh
empty column B, the old column B moving to column C. -/
def migrateRow (r : TrackRow) : TrackRow :=
  { colA := r.colA, colB := Option.none, colC := r.colB }

/-- `excel_handler.read_unprocessed_rows` on the sheet model: after the
optional column migration, a row `(2+i)` is returned when column A and
column B are truthy with non-blank stripped text and column C is falsy
or blank (source lines 146-155). -/
def read_unprocessed_rows (s : Sheet) : List (Nat × String × String) :=
  let rows := if migrationNeeded s.headerB then s.rows.map migrateRow else s.rows
  rows.enum.filterMap (fun ir =>
    let row := ir.2
    if cellTruthy row.colA && pyStrip (cellStr row.colA) ≠ "" then
      if cellTruthy row.colB && pyStrip (cellStr row.colB) ≠ "" then
        if !cellTruthy row.colC || pyStrip (cellStr row.colC) = "" then
          some (ir.1 + 2, pyStrip (cellStr row.colA), pyStrip (cellStr row.colB))
        else Option.none
      else Option.none
    else Option.none)

/-! ## referral_finder.py

The Profile Search Service is an oracle mapping `(query, num_results)`
to the backend's raw result list (both backends swallow their own
exceptions and return the — possibly partial — list accumulated so far,
so the oracle is total; the dead retry branch of `find_referrals`
lines 150-157 is therefore not reachable and not modelled).  Pacing
sleeps have no observable effect and are dropped. -/

/-- One raw search result: `(url, title, snippet)`. -/
structure RawResult where
  link : String
  title : String
  snippet : String
deriving Repr, DecidableEq

/-- A parsed profile before a relationship type is attached. -/
structure Profile where
  name : String
  title : String
  url : String
deriving Repr, DecidableEq

/-- A referral candidate as the rest of the pipeline consumes it. -/
structure Referral where
  name : String
  title : String
  url : String
  connection_type : String
deriving Repr, DecidableEq

/-- Python `s.split(sep, 1)` for a non-empty separator: two pieces when
the separator occurs, the whole string otherwise. -/
def splitFirst (sep : List Char) : List Char → Option (List Char × List Char)
  | [] => Option.none
  | c :: rest =>
      if sep.isPrefixOf (c :: rest) then some ([], (c :: rest).drop sep.length)
      else
        match splitFirst sep rest with
        | some pq => some (c :: pq.1, pq.2)
        | Option.none => Option.none

def pySplitOnce (sep s : String) : List String :=
  match splitFirst sep.toList s.toList with
  | some pq => [String.mk pq.1, String.mk pq.2]
  | Option.none => [s]

def upperAZ (c : Char) : Bool := 'A' ≤ c && c ≤ 'Z'

def lowerAZ (c : Char) : Bool := 'a' ≤ c && c ≤ 'z'

/-- The anchored name pattern `^([A-Z][a-z]+ [A-Z][a-z]+)` of
`referral_finder.py` line 27. -/
def matchNameAt (cs : List Char) : Option (List Char) :=
  match cs with
  | c :: rest =>
      if upperAZ c then
        let l1 := rest.takeWhile lowerAZ
        if l1 ≠ [] then
          match rest.drop l1.length with
          | ' ' :: d :: rest4 =>
              if upperAZ d then
                let l2 := rest4.takeWhile lowerAZ
                if l2 ≠ [] then some (c :: l1 ++ ' ' :: d :: l2) else Option.none
              else Option.none
          | _ => Option.none
        else Option.none
      else Option.none
  | [] => Option.none

/-- `referral_finder._parse_linkedin_title`. -/
def parse_linkedin_title (title description : String) : String × String :=
  let st1 : String × String :=
    if title ≠ "" then
      let titleClean := replaceAll (replaceAll title " | LinkedIn" "") " - LinkedIn" ""
      let parts := pySplitOnce " - " titleClean
      match parts with
      | p0 :: p1 :: _ => (pyStrip p0, pyStrip p1)
      | [p0] => (pyStrip p0, "")
      | [] => ("", "")
    else ("", "")
  let name :=
    if st1.1 = "" ∧ description ≠ "" then
      match matchNameAt description.toList with
      | some g => String.mk g
      | Option.none => st1.1
    else st1.1
  let personTitle :=
    if st1.2 = "" ∧ description ≠ "" then String.mk (description.toList.take 100)
    else st1.2
  ((if name = "" then "Unknown" else name),
   (if personTitle = "" then "Professional" else personTitle))

/-- Python `link.split("?")[0]`: the prefix before the first `?`. -/
def stripQuery (s : String) : String :=
  String.mk (s.toList.takeWhile (fun c => c ≠ '?'))

/-- The per-result post-processing both search backends share
(`referral_finder.py` lines 53-67 and 80-95): keep only results whose
raw link contains the profile path pattern, cut the link at its query
string, and recover name/title. -/
def profileOfRaw (r : RawResult) : Option Profile :=
  if hasSubstr r.link.toList "linkedin.com/in/".toList then
    let nt := parse_linkedin_title r.title r.snippet
    some { name := nt.1, title := nt.2, url := stripQuery r.link }
  else Option.none

/-- `_search` through the oracle: raw results filtered and parsed. -/
def searchProfiles (oracle : String → Nat → List RawResult)
    (q : String) (n : Nat) : List Profile :=
  (oracle q n).filterMap profileOfRaw

/-- A hexadecimal digit, uppercase, as `urllib.parse.quote` emits. -/
def hexDigitChar (n : Nat) : Char :=
  if n < 10 then Char.ofNat (48 + n) else Char.ofNat (55 + n)

/-- `urllib.parse.quote_plus` on one UTF-8 byte: alphanumerics and
`_.-~` kept, space becomes `+`, anything else `%XX`. -/
def quotePlusByte (b : UInt8) : List Char :=
  let n := b.toNat
  if (48 ≤ n ∧ n ≤ 57) ∨ (65 ≤ n ∧ n ≤ 90) ∨ (97 ≤ n ∧ n ≤ 122) ∨
     n = 45 ∨ n = 46 ∨ n = 95 ∨ n = 126 then [Char.ofNat n]
  else if n = 32 then ['+']
  else ['%', hexDigitChar (n / 16), hexDigitChar (n % 16)]

def quotePlus (s : String) : String :=
  String.mk (s.toUTF8.toList.foldr (fun b acc => quotePlusByte b ++ acc) [])

/-- `urllib.parse.urlencode({"q": v})`. -/
def urlencodeQ (v : String) : String := "q=" ++ quotePlus v

def sameRoleQuery (company jobTitle : String) : String :=
  "site:linkedin.com/in \"" ++ company ++ "\" \"" ++ jobTitle ++ "\""

def hiringManagerQuery (company : String) : String :=
  "site:linkedin.com/in \"" ++ company ++
    "\" \"Engineering Manager\" OR \"Data Lead\" OR \"Head of Data\""

def peerQuery (company : String) : String :=
  "site:linkedin.com/in \"" ++ company ++
    "\" \"Data Engineer\" OR \"Analytics Engineer\" OR \"Software Engineer\""

def fallbackQuery (company : String) : String :=
  "site:linkedin.com/in \"" ++ company ++ "\" engineer"

/-- The manually-constructed search-engine link a sentinel slot carries
(`referral_finder.py` lines 183-185). -/
def manualSearchUrl (company jobTitle : String) : String :=
  "https://www.google.com/search?" ++ urlencodeQ (sameRoleQuery company jobTitle)

/-- The sentinel "Could not find profile" candidate. -/
def sentinelReferral (company jobTitle : String) : Referral :=
  { name := "Could not find profile", title := "Try searching manually",
    url := manualSearchUrl company jobTitle, connection_type := "unknown" }

/-- One targeted search iteration (`find_referrals` lines 141-164): skip
once three candidates are held, otherwise accept the first result whose
URL is new, tagged with the search's relationship type. -/
def targetedStep (st : List Referral × List String)
    (profiles : List Profile) (ctype : String) : List Referral × List String :=
  if st.1.length ≥ 3 then st
  else
    match profiles.find? (fun p => !st.2.contains p.url) with
    | some p =>
        (st.1 ++ [{ name := p.name, title := p.title, url := p.url,
                    connection_type := ctype }],
         st.2 ++ [p.url])
    | Option.none => st

/-- The broader-fallback accumulation (`find_referrals` lines 170-177):
accept every new-URL result as `"peer"` until three are held. -/
def fallbackFold (st : List Referral × List String)
    (profiles : List Profile) : List Referral × List String :=
  profiles.foldl
    (fun st p =>
      if st.1.length ≥ 3 then st
      else if st.2.contains p.url then st
      else
        (st.1 ++ [{ name := p.name, title := p.title, url := p.url,
                    connection_type := "peer" }],
         st.2 ++ [p.url]))
    st

/-- `referral_finder.find_referrals`: the three targeted searches in
fixed order, the broader fallback when fewer than three candidates were
accepted, sentinel filling (the `while` loop written in closed form —
each iteration appends the same manually-constructed link), and the
final `[:3]`. -/
def find_referrals (company jobTitle : String)
    (oracle : String → Nat → List RawResult) : List Referral :=
  let st1 := targetedStep ([], [])
    (searchProfiles oracle (sameRoleQuery company jobTitle) 5) "same_role"
  let st2 := targetedStep st1
    (searchProfiles oracle (hiringManagerQuery company) 5) "hiring_manager"
  let st3 := targetedStep st2
    (searchProfiles oracle (peerQuery company) 5) "peer"
  let st4 :=
    if st3.1.length < 3 then
      fallbackFold st3 (searchProfiles oracle (fallbackQuery company) 10)
    else st3
  (st4.1 ++ List.replicate (3 - st4.1.length) (sentinelReferral company jobTitle)).take 3

/-! ## message_generator.py

The single batched completion call is modelled by one oracle value: the
result of `call_claude` + `extract_json` (`.error` = the service call
raised even after its internal retry, or the reply was not valid JSON —
everything the `except` on line 114 catches).  The prompt the source
builds from the sender profile feeds only the service, so the resume
and JD dicts do not appear in the model's data flow. -/

/-- The fixed placeholder for a sentinel candidate's slot
(`message_generator.py` line 30). -/
def sentinelSlotMessage : String := "N/A - no profile found for this slot."

/-- The fixed placeholder for a slot whose message never resolved
(`message_generator.py` line 120). -/
def failedSlotMessage : String := "[Message generation failed]"

/-- Per-message post-processing (`message_generator.py` lines 107-111):
`str(...)`, strip, remove one layer of surrounding double quotes,
truncate to 280 characters with a trailing ellipsis marker. -/
def processMsg (v : PyVal) : String :=
  let cs0 := (pyStrip (pyStr v)).toList
  let cs1 :=
    if "\"".toList.isPrefixOf cs0 && "\"".toList.isSuffixOf cs0 then
      (cs0.drop 1).dropLast
    else cs0
  if cs1.length > 280 then String.mk (cs1.take 277 ++ "...".toList)
  else String.mk cs1

/-- Assign the generated messages to the unresolved (non-sentinel) slots
in order: the k-th parsed message goes to the k-th `none` slot, exactly
as the source's `index_map` does. -/
def fillSlots : List (Option String) → List String → List (Option String)
  | [], _ => []
  | some s :: rest, ms => some s :: fillSlots rest ms
  | Option.none :: rest, [] => Option.none :: fillSlots rest []
  | Option.none :: rest, m :: mrest => some m :: fillSlots rest mrest

/-- `message_generator.generate_messages`.  Sentinel slots are filled
up front; when the reply parses as a list its entries (up to the number
of real profiles) are post-processed and assigned in order; every slot
still unresolved receives the failure placeholder. -/
def generate_messages (referrals : List Referral)
    (reply : Except Unit PyVal) : List String :=
  let slots : List (Option String) := referrals.map (fun p =>
    if p.name = "Could not find profile" then some sentinelSlotMessage
    else Option.none)
  let nReal := (referrals.filter (fun p => p.name ≠ "Could not find profile")).length
  let generated : List String :=
    match reply with
    | .ok (.list xs) => (xs.take nReal).map processMsg
    | _ => []
  (fillSlots slots generated).map (fun o => o.getD failedSlotMessage)

/-! ## resume_parser.py

Text is handled as `String`/`List Char`; the regex fragments the module
uses are compiled by hand into scanners over the lowercased character
list (all the module's patterns carry `re.IGNORECASE` or are
case-insensitive by construction; `\s` is modelled by
`Char.isWhitespace`).  Python's `list(set(...))` re-ordering is
modelled as first-occurrence deduplication. -/

/-- The skill vocabulary of `_extract_skills` (resume_parser.py lines
26-44), in source order. -/
def skillKeywords : List String :=
  [ "Python", "SQL", "PySpark", "Spark", "Java", "Scala", "R",
    "JavaScript", "TypeScript", "Go", "Rust", "C++", "C#",
    "Airflow", "Luigi", "Prefect", "Dagster",
    "AWS", "GCP", "Azure", "S3", "EC2", "Lambda", "Glue", "Redshift",
    "BigQuery", "Dataflow", "Cloud Functions",
    "Snowflake", "Databricks", "dbt",
    "Kafka", "RabbitMQ", "Kinesis", "Pub/Sub",
    "Docker", "Kubernetes", "Terraform", "CI/CD",
    "PostgreSQL", "MySQL", "MongoDB", "Cassandra", "DynamoDB", "Redis",
    "Hadoop", "Hive", "MapReduce", "HDFS",
    "Tableau", "Power BI", "Looker", "Metabase",
    "Git", "GitHub", "GitLab", "Jira",
    "ETL", "ELT", "Data Warehouse", "Data Lake",
    "Machine Learning", "Deep Learning", "NLP", "TensorFlow", "PyTorch",
    "Pandas", "NumPy", "Scikit-learn", "Matplotlib",
    "REST", "GraphQL", "API", "Microservices",
    "Linux", "Shell", "Bash" ]

/-- The tool vocabulary of `_extract_tools` (lines 129-136). -/
def toolKeywords : List String :=
  [ "Airflow", "AWS S3", "Snowflake", "BigQuery", "Databricks",
    "Docker", "Kubernetes", "Terraform", "Jenkins", "GitHub Actions",
    "dbt", "Spark", "Kafka", "Tableau", "Power BI", "Looker",
    "Jupyter", "VS Code", "IntelliJ", "DataGrip",
    "Postman", "Swagger", "Grafana", "Prometheus",
    "Celery", "Redis", "Elasticsearch", "Nginx" ]

def keywordHits (vocab : List String) (text : String) : List String :=
  let tl := strLower text
  dedupFirst (vocab.filter (fun k => hasSubstr tl.toList (strLower k).toList))

def _extract_skills (text : String) : List String := keywordHits skillKeywords text

def _extract_tools (text : String) : List String := keywordHits toolKeywords text

/-- The first-orientation experience pattern
`(\d+)\+?\s*years?\s*(?:of\s+)?experience` tried at one position of the
lowercased text; returns the captured digit run.  Greedy quantifiers
whose give-back alternatives provably cannot succeed (`\d+`, `\+?`,
`\s*`, the optional `s`) are compiled to their maximal-take form. -/
def matchP1At (cs : List Char) : Option (List Char) :=
  let ds := cs.takeWhile Char.isDigit
  if ds = [] then Option.none
  else
    let rest0 := cs.drop ds.length
    let rest1 := match rest0 with
      | '+' :: r => r
      | _ => rest0
    let rest2 := rest1.dropWhile Char.isWhitespace
    if "year".toList.isPrefixOf rest2 then
      let rest3 := rest2.drop 4
      let rest4 := match rest3 with
        | 's' :: r => r
        | _ => rest3
      let rest5 := rest4.dropWhile Char.isWhitespace
      if "of".toList.isPrefixOf rest5 then
        let r6 := rest5.drop 2
        let ws := r6.takeWhile Char.isWhitespace
        if ws ≠ [] ∧ "experience".toList.isPrefixOf (r6.drop ws.length) then some ds
        else if "experience".toList.isPrefixOf rest5 then some ds
        else Option.none
      else if "experience".toList.isPrefixOf rest5 then some ds
      else Option.none
    else Option.none

/-- The second-orientation pattern `experience\s*:?\s*(\d+)\+?\s*years?`
tried at one position. -/
def matchP2At (cs : List Char) : Option (List Char) :=
  if "experience".toList.isPrefixOf cs then
    let r1 := cs.drop 10
    let r2 := r1.dropWhile Char.isWhitespace
    let r3 := match r2 with
      | ':' :: r => r
      | _ => r2
    let r4 := r3.dropWhile Char.isWhitespace
    let ds := r4.takeWhile Char.isDigit
    if ds = [] then Option.none
    else
      let r5 := (r4.drop ds.length)
      let r6 := match r5 with
        | '+' :: r => r
        | _ => r5
      let r7 := r6.dropWhile Char.isWhitespace
      if "year".toList.isPrefixOf r7 then some ds else Option.none
  else Option.none

/-- `re.search`: try the single-position matcher at each position from
the left, returning the first capture (neither experience pattern can
match the empty suffix, so the scan may stop at the end of text). -/
def reSearch (m : List Char → Option (List Char)) : List Char → Option (List Char)
  | [] => Option.none
  | c :: t =>
      match m (c :: t) with
      | some g => some g
      | Option.none => reSearch m t

/-- `re.findall(r"20\d{2}", text)` as the list of year values: the
standard non-overlapping left-to-right scan — after a match the scan
resumes past it, one character ahead otherwise. -/
def findYearsGo : Nat → List Char → List Nat
  | 0, _ => []
  | _, [] => []
  | fuel + 1, c :: t =>
      match c, t with
      | '2', '0' :: a :: b :: rest =>
          if a.isDigit ∧ b.isDigit then
            (2000 + 10 * (a.toNat - 48) + (b.toNat - 48)) :: findYearsGo fuel rest
          else findYearsGo fuel t
      | _, _ => findYearsGo fuel t

def findYears (cs : List Char) : List Nat := findYearsGo cs.length cs

/-- `resume_parser._extract_experience_years`. -/
def _extract_experience_years (text : String) : String :=
  let cs := (strLower text).toList
  match reSearch matchP1At cs with
  | some ds => String.mk ds ++ " years"
  | Option.none =>
      match reSearch matchP2At cs with
      | some ds => String.mk ds ++ " years"
      | Option.none =>
          match findYears cs with
          | [] => "<1"
          | y :: ys =>
              let span := ys.foldl max y - ys.foldl min y
              if span = 0 then "<1" else "~" ++ toString span ++ " years"

/-- A literal-with-optional-dots token of the degree patterns. -/
inductive LTok where
  | ch (c : Char) : LTok
  | optDot : LTok

/-- Match a degree alternative at the head of the lowercased text; the
optional dot is greedy with fallback, mirroring `\.?`. -/
def matchLToks : List LTok → List Char → Bool
  | [], _ => true
  | .ch c :: ts, d :: rest => if d = c then matchLToks ts rest else false
  | .ch _ :: _, [] => false
  | .optDot :: ts, cs =>
      match cs with
      | '.' :: rest => matchLToks ts rest || matchLToks ts cs
      | _ => matchLToks ts cs

def ltoksOf (pieces : List (Option Char)) : List LTok :=
  pieces.map (fun p => match p with
    | some c => .ch c
    | Option.none => .optDot)

/-- The alternatives of the first education pattern
`(B\.?Tech|B\.?E\.?|B\.?S\.?|M\.?Tech|M\.?S\.?|M\.?E\.?|Ph\.?D\.?|MBA)`,
lowercased. -/
def degreeAlts1 : List (List LTok) :=
  [ ltoksOf [some 'b', Option.none, some 't', some 'e', some 'c', some 'h'],
    ltoksOf [some 'b', Option.none, some 'e', Option.none],
    ltoksOf [some 'b', Option.none, some 's', Option.none],
    ltoksOf [some 'm', Option.none, some 't', some 'e', some 'c', some 'h'],
    ltoksOf [some 'm', Option.none, some 's', Option.none],
    ltoksOf [some 'm', Option.none, some 'e', Option.none],
    ltoksOf [some 'p', some 'h', Option.none, some 'd', Option.none],
    ltoksOf [some 'm', some 'b', some 'a'] ]

/-- The alternatives of the second education pattern
`(Bachelor|Master|Doctor)`. -/
def degreeAlts2 : List (List LTok) :=
  [ "bachelor".toList.map LTok.ch,
    "master".toList.map LTok.ch,
    "doctor".toList.map LTok.ch ]

/-- Leftmost index at which a predicate on suffixes holds. -/
def searchIdx (p : List Char → Bool) : List Char → Option Nat
  | [] => Option.none
  | c :: t => if p (c :: t) then some 0 else (searchIdx p t).map (· + 1)

/-- `group(0)` of the education patterns: both patterns' tails
(`[^,\n]*(?:in\s+)?[^,\n]*` and `[^,\n]*`) extend the match from the
alternative's start to the next comma or newline. -/
def segmentFrom (orig : List Char) (i : Nat) : String :=
  String.mk ((orig.drop i).takeWhile (fun c => c ≠ ',' ∧ c ≠ '\n'))

/-- `resume_parser._extract_education`. -/
def _extract_education (text : String) : String :=
  let lower := (strLower text).toList
  let orig := text.toList
  match searchIdx (fun cs => degreeAlts1.any (fun a => matchLToks a cs)) lower with
  | some i => pyStrip (segmentFrom orig i)
  | Option.none =>
      match searchIdx (fun cs => degreeAlts2.any (fun a => matchLToks a cs)) lower with
      | some i => pyStrip (segmentFrom orig i)
      | Option.none => ""

/-- The certification keyword list (lines 90-94). -/
def certKeywords : List String :=
  [ "certified", "certification", "certificate", "credential",
    "AWS Certified", "Google Cloud", "Azure", "Databricks",
    "Snowflake", "Confluent", "Coursera", "Udemy" ]

/-- `resume_parser._extract_certifications`. -/
def _extract_certifications (text : String) : List String :=
  dedupFirst ((pyLines text).filterMap (fun line =>
    if certKeywords.any
         (fun k => hasSubstr (strLower line).toList (strLower k).toList) ∧
       (pyStrip line).length > 10
    then some (pyStrip line) else Option.none))

/-- `re.match` of the projects-heading pattern
`(?:projects?|personal projects?|key projects?)` (a prefix test:
`re.match` does not anchor the end, so `"project"` suffices for the
first alternative). -/
def isProjHeading (ls : String) : Bool :=
  ["project", "personal project", "key project"].any
    (fun p => p.toList.isPrefixOf (strLower ls).toList)

/-- `re.match` of the section-end pattern
`(?:experience|education|skills|certifications?|awards?)`. -/
def isSectionHeading (ls : String) : Bool :=
  ["experience", "education", "skills", "certification", "award"].any
    (fun p => p.toList.isPrefixOf (strLower ls).toList)

/-- `re.split(r"\s*[|–—-]\s*", line)[0].strip()`: the text before the
first separator character, stripped (the separator pattern's
surrounding `\s*` only removes whitespace `strip` removes anyway). -/
def projectName (ls : String) : String :=
  pyStrip (String.mk (ls.toList.takeWhile
    (fun c => c ≠ '|' ∧ c ≠ '–' ∧ c ≠ '—' ∧ c ≠ '-')))

/-- `resume_parser._extract_projects`. -/
def _extract_projects (text : String) : List String :=
  (((pyLines text).foldl
    (fun (st : Bool × List String) line =>
      let ls := pyStrip line
      if isProjHeading ls then (true, st.2)
      else if st.1 then
        if isSectionHeading ls then (false, st.2)
        else if ls ≠ "" ∧ ls.length > 5 then
          let name := projectName ls
          if name ≠ "" ∧ name.length > 3 then (st.1, st.2 ++ [name]) else (st.1, st.2)
        else (st.1, st.2)
      else st)
    (false, [])).2).take 10

/-- `_truncate_text` with its default budget of 2000 tokens ≈ 8000
characters. -/
def _truncate_text (text : String) : String :=
  if text.length ≤ 8000 then text
  else String.mk (text.toList.take 8000) ++ "\n[... truncated for token efficiency ...]"

/-- The fresh profile dict `parse_resume` assembles (lines 182-191). -/
def buildProfile (raw : String) (mtime : Nat) : PyVal :=
  .dict
    [ ("raw_text", .str (_truncate_text raw)),
      ("skills", .list ((_extract_skills raw).map .str)),
      ("experience_years", .str (_extract_experience_years raw)),
      ("education", .str (_extract_education raw)),
      ("certifications", .list ((_extract_certifications raw).map .str)),
      ("projects", .list ((_extract_projects raw).map .str)),
      ("tools", .list ((_extract_tools raw).map .str)),
      ("_pdf_mtime", .int mtime) ]

/-- The filesystem state `parse_resume` interacts with: whether the
resume document exists, its modification timestamp (modelled as a
natural number), the JSON content of the cache file when one exists,
and the text the Document Text Extractor would produce. -/
structure ResumeFs where
  resumeExists : Bool
  resumeMtime : Nat
  cacheContent : Option PyVal
  extractedText : String
deriving Repr

inductive ResumeErr where
  | fileNotFound : ResumeErr
  | extractionEmpty : ResumeErr
  | runtimeErr (e : PyErr) : ResumeErr
deriving Repr, DecidableEq

/-- The cache-miss path of `parse_resume` (lines 178-198): extract,
derive, overwrite the cache.  The returned `Bool` records that text
extraction and derivation were performed. -/
def freshBuild (fs : ResumeFs) : Except ResumeErr (PyVal × ResumeFs × Bool) :=
  if fs.extractedText = "" then .error .extractionEmpty
  else
    let parsed := buildProfile fs.extractedText fs.resumeMtime
    .ok (parsed, { fs with cacheContent := some parsed }, true)

/-- `resume_parser.parse_resume` on the filesystem model.  The result
carries the returned profile, the filesystem after the call, and
whether extraction/derivation ran. -/
def parse_resume (fs : ResumeFs) : Except ResumeErr (PyVal × ResumeFs × Bool) :=
  if !fs.resumeExists then .error .fileNotFound
  else
    match fs.cacheContent with
    | some cached =>
        match pyDictGetD cached "_pdf_mtime" .none with
        | .error e => .error (.runtimeErr e)
        | .ok stored =>
            if pyEq stored (.int fs.resumeMtime) then .ok (cached, fs, false)
            else freshBuild fs
    | Option.none => freshBuild fs

/-! ## main.py

The run is driven by oracles for everything `main` calls: the tracker
read, the resume parse, and the four per-row pipeline stages.  The
second component of the result is the list of rows actually persisted
through `write_results`. -/

/-- The names bound at module level in `excel_handler.py` (imports,
constants and functions) — the attributes `getattr` can resolve. -/
def excelHandlerModuleNames : List String :=
  [ "os", "Workbook", "load_workbook", "Alignment", "Font", "PatternFill",
    "config", "EXPECTED_HEADERS", "COLUMN_WIDTHS", "GREEN_FILL",
    "YELLOW_FILL", "RED_FILL", "_ensure_tracker_exists",
    "_migrate_columns_if_needed", "_apply_formatting",
    "read_unprocessed_rows", "write_results" ]

inductive MainOutcome where
  | exitKeyMissing : MainOutcome
  | exitReadError : MainOutcome
  | exitNoRows : MainOutcome
  | exitResumeError : MainOutcome
  | crashedAttributeError : MainOutcome
  | finished (succeeded failed : List Nat) : MainOutcome
deriving Repr, DecidableEq

structure MainEnv where
  apiKeySet : Bool
  readRows : Except Unit (List (Nat × String × String))
  resume : Except Unit PyVal
  rowParseJd : String → Except String PyVal
  rowMatch : PyVal → PyVal → String → Except String PyVal
  rowReferrals : String → String → Except String (List Referral)
  rowMessages : List Referral → PyVal → PyVal → Except String (List String)
  rowWrite : Nat → Except String Unit

/-- The body of the per-row `try` block of `main` (lines 76-112). -/
def processRow (env : MainEnv) (resumeData : PyVal)
    (row : Nat × String × String) : Except String Nat := do
  let jdData ← env.rowParseJd row.2.2
  let jt ← (pyDictGetD jdData "job_title" (.str "Unknown")).mapError (fun _ => "AttributeError")
  let cn ← (pyDictGetD jdData "company_name" (.str "Unknown")).mapError (fun _ => "AttributeError")
  let matchResult ← env.rowMatch resumeData jdData row.2.2
  let _mp ← (pyDictGetD matchResult "match_percentage" (.int 0)).mapError (fun _ => "AttributeError")
  let refs ← env.rowReferrals (pyStr cn) (pyStr jt)
  let _msgs ← env.rowMessages refs resumeData jdData
  env.rowWrite row.1
  pure row.1

/-- The row loop: each row's failure is caught at the row boundary. -/
def processRows (env : MainEnv) (resumeData : PyVal)
    (rows : List (Nat × String × String)) : MainOutcome × List Nat :=
  let st := rows.foldl
    (fun (st : List Nat × List Nat) row =>
      match processRow env resumeData row with
      | .ok n => (st.1 ++ [n], st.2)
      | .error _ => (st.1, st.2 ++ [row.1]))
    ([], [])
  (.finished st.1 st.2, st.1)

/-- `main.main`: setup validation, tracker read, resume parse, then —
exactly as in the source, line 72 — the attribute lookup
`excel_handler.TrackerWriter` before any row is processed; an
unresolvable attribute raises `AttributeError` outside every per-row
`try`. -/
def mainRun (env : MainEnv) : MainOutcome × List Nat :=
  if !env.apiKeySet then (.exitKeyMissing, [])
  else
    match env.readRows with
    | .error _ => (.exitReadError, [])
    | .ok rows =>
        if rows.isEmpty then (.exitNoRows, [])
        else
          match env.resume with
          | .error _ => (.exitResumeError, [])
          | .ok resumeData =>
              if "TrackerWriter" ∈ excelHandlerModuleNames then
                processRows env resumeData rows
              else (.crashedAttributeError, [])

/-! ## Definitions following the specification's words

These definitions are written from the claims' phrasing (not from the
source) and exist only to be compared with the source embeddings. -/

/-- The spec's notion of an *empty* cell: absent, or only whitespace. -/
def cellBlank : Option String → Bool
  | some s => pyStrip s = ""
  | Option.none => true

/-- The least text position at which a single-position matcher
succeeds — the "first match" of the claims' wording. -/
def firstMatchIdx (m : List Char → Option (List Char)) (cs : List Char) : Option Nat :=
  (List.range cs.length).find? (fun i => (m (cs.drop i)).isSome)

/-- A `20\d{2}` year value read at one fixed position. -/
def yearAt : List Char → Option Nat
  | '2' :: '0' :: a :: b :: _ =>
      if a.isDigit ∧ b.isDigit then some (2000 + 10 * (a.toNat - 48) + (b.toNat - 48))
      else Option.none
  | _ => Option.none

/-- Every 4-digit 2000–2099 year occurring *anywhere* in the text
(overlapping occurrences included), as C10's fallback clause reads. -/
def yearsAnywhere (cs : List Char) : List Nat :=
  (List.range cs.length).filterMap (fun i => yearAt (cs.drop i))

/-- The experience-years derivation exactly as claim C10 words it: the
first match of the pattern in either orientation (first orientation
taking precedence), else the span between the minimum and maximum
4-digit year found anywhere in the text, `"<1"` when that span is zero
or no year occurs. -/
def experienceYearsClaim (text : String) : String :=
  let cs := (strLower text).toList
  match firstMatchIdx matchP1At cs with
  | some i => String.mk ((matchP1At (cs.drop i)).getD []) ++ " years"
  | Option.none =>
      match firstMatchIdx matchP2At cs with
      | some i => String.mk ((matchP2At (cs.drop i)).getD []) ++ " years"
      | Option.none =>
          match yearsAnywhere cs with
          | [] => "<1"
          | y :: ys =>
              let span := ys.foldl max y - ys.foldl min y
              if span = 0 then "<1" else "~" ++ toString span ++ " years"

/-- C10 as amended: identical to `experienceYearsClaim` except that the
fallback years are the non-overlapping left-to-right matches of the
year pattern (`re.findall` semantics), not all occurrences. -/
def experienceYearsAmended (text : String) : String :=
  let cs := (strLower text).toList
  match firstMatchIdx matchP1At cs with
  | some i => String.mk ((matchP1At (cs.drop i)).getD []) ++ " years"
  | Option.none =>
      match firstMatchIdx matchP2At cs with
      | some i => String.mk ((matchP2At (cs.drop i)).getD []) ++ " years"
      | Option.none =>
          match findYears cs with
          | [] => "<1"
          | y :: ys =>
              let span := ys.foldl max y - ys.foldl min y
              if span = 0 then "<1" else "~" ++ toString span ++ " years"

/-! ## Claim theorems -/

/-- C1: `excel_handler` binds no name `TrackerWriter`, and `main` enters
its row loop through `excel_handler.TrackerWriter()` outside the
per-row `try`; so whenever the tracker read returns at least one row
and the resume parse succeeds, the run dies with `AttributeError`
before any row is processed or persisted (the persisted-rows trace is
empty). -/
theorem main_crashes_before_any_row (env : MainEnv)
    (rows : List (Nat × String × String)) (profile : PyVal)
    (hkey : env.apiKeySet = true)
    (hread : env.readRows = .ok rows)
    (hne : rows ≠ [])
    (hres : env.resume = .ok profile) :
    "TrackerWriter" ∉ excelHandlerModuleNames ∧
    mainRun env = (MainOutcome.crashedAttributeError, []) := by
  have h1 : rows.isEmpty = false := by
    cases rows with
    | nil => exact absurd rfl hne
    | cons a t => rfl
  refine ⟨by decide, ?_⟩
  simp [mainRun, hkey, hread, hres, h1, excelHandlerModuleNames]

/-- Closed instance of C1's theorem at a concrete environment. -/
theorem main_crashes_before_any_row_witness :
    mainRun
      { apiKeySet := true, readRows := .ok [(2, "link", "jd text")],
        resume := .ok (.dict []),
        rowParseJd := fun _ => .error "unused",
        rowMatch := fun _ _ _ => .error "unused",
        rowReferrals := fun _ _ => .error "unused",
        rowMessages := fun _ _ _ => .error "unused",
        rowWrite := fun _ => .ok () } = (MainOutcome.crashedAttributeError, []) :=
  (main_crashes_before_any_row _ [(2, "link", "jd text")] (.dict [])
    rfl rfl (List.cons_ne_nil _ _) rfl).2

/-- C2 (code bug): on the retry path `match_resume_to_jd` returns the
parsed reply without the clamping and padding the first-attempt path
applies — here the retry reply `{"match_percentage": 150,
"improvements": []}` is returned verbatim, its percentage outside
`[0, 100]` and its improvements list shorter than 3, while the same
reply arriving on the first attempt is clamped to 100 and padded. -/
theorem matcher_retry_skips_validation :
    match_resume_to_jd (.error ())
        (.ok (.ok (.dict [("match_percentage", .int 150), ("improvements", .list [])])))
      = .ok (.dict [("match_percentage", .int 150), ("improvements", .list [])]) ∧
    ¬ ((150 : Int) ≤ 100) ∧
    ([] : List PyVal).length < 3 ∧
    match_resume_to_jd
        (.ok (.ok (.dict [("match_percentage", .int 150), ("improvements", .list [])])))
        (.error ())
      = .ok (.dict [("match_percentage", .int 100),
          ("improvements",
            .list [.str improvementFiller, .str improvementFiller, .str improvementFiller])]) :=
  ⟨rfl, by decide, by decide, rfl⟩

/-- C3 (code bug): on the retry path `parse_jd` skips schema
completion — a retry reply `{}` is returned with none of the 8 schema
keys present, while the same reply on the first attempt is completed
to the full default schema. -/
theorem jd_parser_retry_skips_schema_completion :
    parse_jd (.error ()) (.ok (.ok (.dict []))) = .ok (.dict []) ∧
    (jdDefaults.all (fun kv => (([] : List (String × PyVal)).lookup kv.1).isNone)) = true ∧
    parse_jd (.ok (.ok (.dict []))) (.error ()) = .ok (.dict jdDefaults) :=
  ⟨rfl, rfl, rfl⟩

/-- C5 counterexample: when every search returns zero results the three
sentinel slots all carry the *same* manually-constructed search link,
so the claimed pairwise distinctness of the three URLs is false. -/
theorem find_referrals_sentinel_urls_not_distinct :
    (find_referrals "Acme" "Data Engineer" (fun _ _ => [])).length = 3 ∧
    (∀ r ∈ find_referrals "Acme" "Data Engineer" (fun _ _ => []),
        r.name = "Could not find profile") ∧
    ¬ (((find_referrals "Acme" "Data Engineer" (fun _ _ => [])).map
        (fun r => r.url)).Nodup) := by
  refine ⟨rfl, ?_, ?_⟩
  · intro r hr
    have he : find_referrals "Acme" "Data Engineer" (fun _ _ => []) =
        [sentinelReferral "Acme" "Data Engineer", sentinelReferral "Acme" "Data Engineer",
         sentinelReferral "Acme" "Data Engineer"] := rfl
    rw [he] at hr
    simp only [List.mem_cons, List.not_mem_nil, or_false] at hr
    rcases hr with h | h | h <;> rw [h] <;> rfl
  · intro h
    have h0 := (List.nodup_cons.mp h).1
    exact h0 (List.mem_cons_self _ _)

/-- C5 amended: with all three targeted searches and the fallback
returning zero results, the output is exactly three sentinel
candidates, each with relationship type `"unknown"`, and the three
manually-constructed search links are all identical (the same URL),
not pairwise distinct. -/
theorem find_referrals_all_searches_empty (company jobTitle : String) :
    find_referrals company jobTitle (fun _ _ => []) =
      [sentinelReferral company jobTitle, sentinelReferral company jobTitle,
       sentinelReferral company jobTitle] ∧
    (sentinelReferral company jobTitle).name = "Could not find profile" ∧
    (sentinelReferral company jobTitle).connection_type = "unknown" ∧
    (sentinelReferral company jobTitle).url = manualSearchUrl company jobTitle :=
  ⟨rfl, rfl, rfl, rfl⟩

/-- C9 counterexample: the fixed placeholder a failed slot receives is
`"[Message generation failed]"` with a capital M, not the
`"[message generation failed]"` the claim quotes. -/
theorem generate_messages_placeholder_capitalization :
    generate_messages
        [{ name := "Alex Chen", title := "Engineer",
           url := "https://linkedin.com/in/alexchen", connection_type := "peer" }]
        (.error ())
      = ["[Message generation failed]"] ∧
    "[Message generation failed]" ≠ "[message generation failed]" :=
  ⟨rfl, by decide⟩

/-- C10 counterexample: in `"202015"` the years 2020 and 2015 both
occur (the claim's min/max-over-years-found-anywhere span is 5, not
zero), yet the non-overlapping `re.findall` scan only sees 2020, so
the code reports `"<1"` where the claim requires the span. -/
theorem experience_years_overlapping_year_missed :
    _extract_experience_years "202015" = "<1" ∧
    yearsAnywhere "202015".toList = [2020, 2015] ∧
    experienceYearsClaim "202015" = "~5 years" ∧
    ("<1" : String) ≠ "~5 years" :=
  ⟨rfl, rfl, rfl, by decide⟩

/-! ### Helper lemmas about the message composer -/

theorem fillSlots_length (slots : List (Option String)) (ms : List String) :
    (fillSlots slots ms).length = slots.length := by
  induction slots generalizing ms with
  | nil => rfl
  | cons o rest ih =>
      cases o with
      | some s => simp [fillSlots, ih]
      | none =>
          cases ms with
          | nil => simp [fillSlots, ih]
          | cons m mrest => simp [fillSlots, ih]

theorem fillSlots_get_some (slots : List (Option String)) (ms : List String)
    (i : Nat) (s : String) (h : slots.get? i = some (some s)) :
    (fillSlots slots ms).get? i = some (some s) := by
  induction slots generalizing ms i with
  | nil => simp at h
  | cons o rest ih =>
      cases i with
      | zero =>
          simp only [List.get?] at h
          injection h with h
          subst h
          cases ms <;> rfl
      | succ n =>
          simp only [List.get?] at h
          cases o with
          | some t => simpa [fillSlots] using ih ms n h
          | none =>
              cases ms with
              | nil => simpa [fillSlots] using ih [] n h
              | cons m mrest => simpa [fillSlots] using ih mrest n h

theorem fillSlots_elem (slots : List (Option String)) (ms : List String)
    {o : Option String} (ho : o ∈ fillSlots slots ms) :
    o = Option.none ∨ o ∈ slots ∨ ∃ m ∈ ms, o = some m := by
  induction slots generalizing ms with
  | nil => simp [fillSlots] at ho
  | cons hd rest ih =>
      cases hd with
      | some s =>
          rcases List.mem_cons.mp ho with h | h
          · exact Or.inr (Or.inl (h ▸ List.mem_cons_self _ _))
          · rcases ih ms h with h1 | h1 | ⟨m, hm, h2⟩
            · exact Or.inl h1
            · exact Or.inr (Or.inl (List.mem_cons_of_mem _ h1))
            · exact Or.inr (Or.inr ⟨m, hm, h2⟩)
      | none =>
          cases ms with
          | nil =>
              rcases List.mem_cons.mp ho with h | h
              · exact Or.inl h
              · rcases ih [] h with h1 | h1 | ⟨m, hm, h2⟩
                · exact Or.inl h1
                · exact Or.inr (Or.inl (List.mem_cons_of_mem _ h1))
                · simp at hm
          | cons m mrest =>
              rcases List.mem_cons.mp ho with h | h
              · exact Or.inr (Or.inr ⟨m, List.mem_cons_self _ _, h⟩)
              · rcases ih mrest h with h1 | h1 | ⟨m', hm', h2⟩
                · exact Or.inl h1
                · exact Or.inr (Or.inl (List.mem_cons_of_mem _ h1))
                · exact Or.inr (Or.inr ⟨m', List.mem_cons_of_mem _ hm', h2⟩)

theorem fillSlots_nil_ms (slots : List (Option String)) : fillSlots slots [] = slots := by
  induction slots with
  | nil => rfl
  | cons o rest ih => cases o <;> simp [fillSlots, ih]

theorem processMsg_length (v : PyVal) : (processMsg v).length ≤ 280 := by
  simp only [processMsg]
  split <;> split <;>
    · first
      | (rw [String.length_mk, List.length_append, List.length_take]
         have h3 : "...".toList.length = 3 := rfl
         omega)
      | (rw [String.length_mk]; omega)

/-- C8: `generate_messages` returns one message per candidate, in
candidate order; each sentinel candidate's slot carries the fixed "not
applicable" placeholder; and every returned message is at most 280
characters long (over-long drafts having been truncated with a
trailing ellipsis marker inside `processMsg`). -/
theorem generate_messages_shape_and_bounds (referrals : List Referral)
    (reply : Except Unit PyVal) :
    (generate_messages referrals reply).length = referrals.length ∧
    (∀ i r, referrals.get? i = some r → r.name = "Could not find profile" →
        (generate_messages referrals reply).get? i = some sentinelSlotMessage) ∧
    (∀ m ∈ generate_messages referrals reply, m.length ≤ 280) := by
  refine ⟨?_, ?_, ?_⟩
  · simp [generate_messages, fillSlots_length]
  · intro i r hi hname
    have hs : (referrals.map (fun p =>
        if p.name = "Could not find profile" then some sentinelSlotMessage
        else Option.none)).get? i = some (some sentinelSlotMessage) := by
      rw [List.get?_map, hi]
      simp [hname]
    simp only [generate_messages]
    rw [List.get?_map, fillSlots_get_some _ _ _ _ hs]
    rfl
  · intro m hm
    simp only [generate_messages, List.mem_map] at hm
    obtain ⟨o, ho, rfl⟩ := hm
    rcases fillSlots_elem _ _ ho with h | h | ⟨g, hg, rfl⟩
    · subst h
      decide
    · rcases List.mem_map.mp h with ⟨p, _, hp⟩
      by_cases hname : p.name = "Could not find profile"
      · rw [← hp]
        simp only [hname, if_pos]
        decide
      · rw [← hp]
        simp only [hname, if_neg, ite_false]
        decide
    · simp only [Option.getD_some]
      rcases reply with e | v
      · simp at hg
      · cases v with
        | list xs =>
            simp only [List.mem_map] at hg
            obtain ⟨w, _, rfl⟩ := hg
            exact processMsg_length w
        | none => simp at hg
        | str s => simp at hg
        | int n => simp at hg
        | dict kvs => simp at hg

/-- Closed instance of C8's theorem: a three-candidate row with one
sentinel slot and a two-message reply. -/
theorem generate_messages_shape_and_bounds_witness :
    (generate_messages
        [{ name := "Alex Chen", title := "Engineer",
           url := "https://linkedin.com/in/alexchen", connection_type := "same_role" },
         { name := "Could not find profile", title := "Try searching manually",
           url := "https://www.google.com/search?q=x", connection_type := "unknown" },
         { name := "Bo Li", title := "Data Lead",
           url := "https://linkedin.com/in/boli", connection_type := "peer" }]
        (.ok (.list [.str "hi there", .str "hello"]))).length = 3 ∧
    (generate_messages
        [{ name := "Alex Chen", title := "Engineer",
           url := "https://linkedin.com/in/alexchen", connection_type := "same_role" },
         { name := "Could not find profile", title := "Try searching manually",
           url := "https://www.google.com/search?q=x", connection_type := "unknown" },
         { name := "Bo Li", title := "Data Lead",
           url := "https://linkedin.com/in/boli", connection_type := "peer" }]
        (.ok (.list [.str "hi there", .str "hello"]))).get? 1 = some sentinelSlotMessage := by
  constructor
  · exact (generate_messages_shape_and_bounds _ _).1
  · exact (generate_messages_shape_and_bounds _ _).2.1 1 _ rfl rfl

/-- C9 amended: when the batched call fails entirely (the service call
raised, or the reply did not parse as a JSON list), `generate_messages`
still returns — every non-sentinel slot receives the fixed
`"[Message generation failed]"` placeholder (capital M), so the row can
complete. -/
theorem generate_messages_failure_placeholders (referrals : List Referral)
    (reply : Except Unit PyVal)
    (hfail : ∀ xs : List PyVal, reply ≠ .ok (.list xs)) :
    ∀ i r, referrals.get? i = some r → r.name ≠ "Could not find profile" →
      (generate_messages referrals reply).get? i = some failedSlotMessage := by
  intro i r hi hname
  have hslot : (referrals.map (fun p =>
      if p.name = "Could not find profile" then some sentinelSlotMessage
      else Option.none)).get? i = some Option.none := by
    rw [List.get?_map, hi]
    simp [hname]
  have hgen : generate_messages referrals reply =
      (referrals.map (fun p =>
        if p.name = "Could not find profile" then some sentinelSlotMessage
        else Option.none)).map (fun o => o.getD failedSlotMessage) := by
    simp only [generate_messages]
    rcases reply with e | v
    · rw [fillSlots_nil_ms]
    · cases v with
      | list xs => exact absurd rfl (hfail xs)
      | none => rw [fillSlots_nil_ms]
      | str s => rw [fillSlots_nil_ms]
      | int n => rw [fillSlots_nil_ms]
      | dict kvs => rw [fillSlots_nil_ms]
  rw [hgen, List.get?_map, hslot]
  rfl

/-- Closed instance of C9's amended theorem at a failing service call. -/
theorem generate_messages_failure_placeholders_witness :
    (generate_messages
        [{ name := "Alex Chen", title := "Engineer",
           url := "https://linkedin.com/in/alexchen", connection_type := "peer" }]
        (.error ())).get? 0 = some failedSlotMessage :=
  generate_messages_failure_placeholders _ (.error ())
    (fun _ h => by injection h) 0 _ rfl (by decide)

/-! ### Helper lemmas about row selection -/

theorem mem_enumFrom_iff {α : Type} (l : List α) :
    ∀ (n m : Nat) (a : α),
      (m, a) ∈ l.enumFrom n ↔ n ≤ m ∧ l.get? (m - n) = some a := by
  induction l with
  | nil => intro n m a; simp [List.enumFrom]
  | cons x xs ih =>
      intro n m a
      simp only [List.enumFrom, List.mem_cons]
      constructor
      · rintro (h | h)
        · obtain ⟨h1, h2⟩ := Prod.mk.injEq .. ▸ h
          injection h with h1 h2
          subst h1; subst h2
          exact ⟨Nat.le_refl _, by simp⟩
        · obtain ⟨h1, h2⟩ := (ih (n + 1) m a).mp h
          refine ⟨by omega, ?_⟩
          have hms : m - n = (m - (n + 1)) + 1 := by omega
          rw [hms]
          simpa using h2
      · rintro ⟨hle, hget⟩
        rcases Nat.eq_or_lt_of_le hle with heq | hlt
        · subst heq
          simp only [Nat.sub_self, List.get?] at hget
          injection hget with hget
          exact Or.inl (by rw [hget])
        · refine Or.inr ((ih (n + 1) m a).mpr ⟨hlt, ?_⟩)
          have hms : m - n = (m - (n + 1)) + 1 := by omega
          rw [hms] at hget
          simpa using hget

theorem mem_enum_iff {α : Type} {l : List α} {i : Nat} {a : α} :
    (i, a) ∈ l.enum ↔ l.get? i = some a := by
  rw [List.enum, mem_enumFrom_iff]
  simp

theorem nonblank_cond (c : Option String) :
    (cellTruthy c && decide (pyStrip (cellStr c) ≠ "")) = true ↔ cellBlank c = false := by
  cases c with
  | none => simp [cellTruthy, cellStr, cellBlank]
  | some s =>
      by_cases hs : s = ""
      · subst hs
        simp [cellTruthy, cellStr, cellBlank]
        rfl
      · by_cases ht : pyStrip s = "" <;>
          simp [cellTruthy, cellStr, cellBlank, hs, ht]

theorem blank_cond (c : Option String) :
    (!cellTruthy c || decide (pyStrip (cellStr c) = "")) = true ↔ cellBlank c = true := by
  cases c with
  | none => simp [cellTruthy, cellStr, cellBlank]
  | some s =>
      by_cases hs : s = ""
      · subst hs
        simp [cellTruthy, cellStr, cellBlank]
        rfl
      · by_cases ht : pyStrip s = "" <;>
          simp [cellTruthy, cellStr, cellBlank, hs, ht]

/-- C7: for a tracker in the current column layout, a row is selected
by `read_unprocessed_rows` exactly when its job-link cell is non-empty,
its JD-text cell is non-empty and its match-percentage cell is empty
(empty = absent or whitespace-only); in particular a row whose match
cell holds a value is excluded on a re-run whatever its other cells
hold. -/
theorem read_unprocessed_rows_selection_iff (s : Sheet)
    (hmig : migrationNeeded s.headerB = false)
    (i : Nat) (row : TrackRow) (hrow : s.rows.get? i = some row) :
    (∃ l j, (i + 2, l, j) ∈ read_unprocessed_rows s) ↔
      (cellBlank row.colA = false ∧ cellBlank row.colB = false ∧
       cellBlank row.colC = true) := by
  unfold read_unprocessed_rows
  rw [hmig]
  simp only [if_false, Bool.false_eq_true]
  constructor
  · rintro ⟨l, j, hmem⟩
    obtain ⟨⟨k, row'⟩, hin, hf⟩ := List.mem_filterMap.mp hmem
    simp only at hf
    by_cases h1 : (cellTruthy row'.colA && decide (pyStrip (cellStr row'.colA) ≠ "")) = true
    · rw [if_pos h1] at hf
      by_cases h2 : (cellTruthy row'.colB && decide (pyStrip (cellStr row'.colB) ≠ "")) = true
      · rw [if_pos h2] at hf
        by_cases h3 : (!cellTruthy row'.colC || decide (pyStrip (cellStr row'.colC) = "")) = true
        · rw [if_pos h3] at hf
          have htup := Option.some.inj hf
          have hki : k = i := by
            have hfst := congrArg Prod.fst htup
            simp only at hfst
            omega
          subst hki
          have hrr : row' = row := by
            have hg := mem_enum_iff.mp hin
            rw [hrow] at hg
            injection hg with hg
            exact hg.symm
          subst hrr
          exact ⟨(nonblank_cond _).mp h1, (nonblank_cond _).mp h2, (blank_cond _).mp h3⟩
        · rw [if_neg h3] at hf; exact absurd hf (by simp)
      · rw [if_neg h2] at hf; exact absurd hf (by simp)
    · rw [if_neg h1] at hf; exact absurd hf (by simp)
  · rintro ⟨hA, hB, hC⟩
    refine ⟨pyStrip (cellStr row.colA), pyStrip (cellStr row.colB),
      List.mem_filterMap.mpr ⟨(i, row), mem_enum_iff.mpr hrow, ?_⟩⟩
    simp only
    rw [if_pos ((nonblank_cond _).mpr hA), if_pos ((nonblank_cond _).mpr hB),
      if_pos ((blank_cond _).mpr hC)]

/-- Closed instance of C7's theorem: a fresh row is selected, a row with
a filled match cell is excluded. -/
theorem read_unprocessed_rows_selection_iff_witness :
    (∃ l j, (2, l, j) ∈ read_unprocessed_rows
      ⟨some "JD Text",
        [⟨some "https://job", some "desc", Option.none⟩,
         ⟨some "https://job2", some "desc2", some "80%"⟩]⟩) ∧
    ¬ (∃ l j, (3, l, j) ∈ read_unprocessed_rows
      ⟨some "JD Text",
        [⟨some "https://job", some "desc", Option.none⟩,
         ⟨some "https://job2", some "desc2", some "80%"⟩]⟩) := by
  constructor
  · exact (read_unprocessed_rows_selection_iff
      ⟨some "JD Text",
        [⟨some "https://job", some "desc", Option.none⟩,
         ⟨some "https://job2", some "desc2", some "80%"⟩]⟩ (by decide) 0
      ⟨some "https://job", some "desc", Option.none⟩ rfl).mpr
      ⟨by decide, by decide, by decide⟩
  · intro hmem
    have h := (read_unprocessed_rows_selection_iff
      ⟨some "JD Text",
        [⟨some "https://job", some "desc", Option.none⟩,
         ⟨some "https://job2", some "desc2", some "80%"⟩]⟩ (by decide) 1 _ rfl).mp hmem
    exact absurd h.2.2 (by decide)

/-! ### Helper lemma for the resume cache -/

theorem pyEq_int_iff (v : PyVal) (m : Int) : pyEq v (.int m) = true ↔ v = .int m := by
  cases v <;> simp [pyEq]

/-- C6: when the resume document exists, `parse_resume` returns the
cached profile unchanged — no extraction, no derivation, no cache
write — exactly when a cache is present whose stored modification
timestamp equals the document's current one; in every other reachable
cache state (no cache, or a stored timestamp differing from the
current one) it extracts afresh, derives the profile, and overwrites
the cache with it. -/
theorem parse_resume_cache_behavior (fs : ResumeFs) (hex : fs.resumeExists = true) :
    (∀ kvs, fs.cacheContent = some (.dict kvs) →
        kvs.lookup "_pdf_mtime" = some (.int fs.resumeMtime) →
        parse_resume fs = .ok (.dict kvs, fs, false)) ∧
    ((fs.cacheContent = Option.none ∨
      ∃ kvs, fs.cacheContent = some (.dict kvs) ∧
        kvs.lookup "_pdf_mtime" ≠ some (.int (fs.resumeMtime : Int))) →
      fs.extractedText ≠ "" →
      parse_resume fs =
        .ok (buildProfile fs.extractedText fs.resumeMtime,
             { fs with cacheContent := some (buildProfile fs.extractedText fs.resumeMtime) },
             true)) := by
  constructor
  · intro kvs hc hlook
    simp [parse_resume, hex, hc, pyDictGetD, hlook, pyEq]
  · intro hmiss hext
    have hfresh : freshBuild fs =
        .ok (buildProfile fs.extractedText fs.resumeMtime,
             { fs with cacheContent := some (buildProfile fs.extractedText fs.resumeMtime) },
             true) := by
      unfold freshBuild
      rw [if_neg hext]
    unfold parse_resume
    rw [hex]
    rw [hex] at hfresh
    simp only [Bool.not_true, Bool.false_eq_true, if_false]
    rcases hmiss with hc | ⟨kvs, hc, hne⟩
    · rw [hc]
      exact hfresh
    · rw [hc]
      cases hl : kvs.lookup "_pdf_mtime" with
      | none =>
          simp only [pyDictGetD, hl]
          rw [show pyEq PyVal.none (.int fs.resumeMtime) = false from rfl]
          simpa using hfresh
      | some v =>
          have hv : v ≠ .int fs.resumeMtime := fun h => hne (by rw [hl, h])
          simp only [pyDictGetD, hl]
          rw [show pyEq v (.int fs.resumeMtime) = false from
            (Bool.eq_false_iff).mpr (fun h => hv ((pyEq_int_iff v _).mp h))]
          simpa using hfresh

/-- Closed instance of C6's theorem: a valid cache is returned as-is
without extraction; a stale cache forces a rebuild that overwrites the
cache. -/
theorem parse_resume_cache_behavior_witness :
    parse_resume ⟨true, 7, some (.dict [("_pdf_mtime", .int 7)]), "text"⟩ =
      .ok (.dict [("_pdf_mtime", .int 7)],
           ⟨true, 7, some (.dict [("_pdf_mtime", .int 7)]), "text"⟩, false) ∧
    parse_resume ⟨true, 9, some (.dict [("_pdf_mtime", .int 7)]), "Python"⟩ =
      .ok (buildProfile "Python" 9,
           ⟨true, 9, some (buildProfile "Python" 9), "Python"⟩, true) := by
  constructor
  · exact (parse_resume_cache_behavior _ rfl).1 _ rfl rfl
  · exact (parse_resume_cache_behavior _ rfl).2
      (Or.inr ⟨_, rfl, fun h => by
        have hl : List.lookup "_pdf_mtime" [("_pdf_mtime", PyVal.int 7)] =
            some (PyVal.int 7) := rfl
        rw [hl] at h
        have h1 := Option.some.inj h
        have h2 : (7 : Int) = (9 : Int) := by injection h1
        exact absurd h2 (by decide)⟩) (by decide)

/-! ### The scanner computes the leftmost match -/

theorem reSearch_eq (m : List Char → Option (List Char)) (cs : List Char) :
    reSearch m cs = (firstMatchIdx m cs).bind (fun i => m (cs.drop i)) := by
  induction cs with
  | nil => rfl
  | cons c t ih =>
      simp only [reSearch, firstMatchIdx, List.length_cons, List.range_succ_eq_map]
      cases hm : m (c :: t) with
      | some g =>
          rw [List.find?_cons_of_pos _ (by simp [hm])]
          simp [hm]
      | none =>
          rw [List.find?_cons_of_neg _ (by simp [hm])]
          rw [List.find?_map]
          have hcomp : ((fun i => (m ((c :: t).drop i)).isSome) ∘ Nat.succ)
              = fun i => (m (t.drop i)).isSome := by
            funext i
            rfl
          rw [hcomp, ih]
          simp only [firstMatchIdx]
          cases hf : (List.range t.length).find? (fun i => (m (t.drop i)).isSome) with
          | none => rfl
          | some j => rfl

/-- C10 amended: for every input text the experience-years derivation
returns the first match of the explicit pattern in either orientation
(the "N years experience" orientation taking precedence) when one
exists; otherwise it reports the span between the minimum and maximum
year among the non-overlapping left-to-right matches of the
4-digit-year pattern, or `"<1"` when that span is zero or no year is
found. -/
theorem experience_years_matches_amended_spec (text : String) :
    _extract_experience_years text = experienceYearsAmended text := by
  simp only [_extract_experience_years, experienceYearsAmended]
  rw [reSearch_eq, reSearch_eq]
  cases h1 : firstMatchIdx matchP1At ((strLower text).toList) with
  | some i =>
      rw [firstMatchIdx] at h1
      have hp0 := List.find?_some h1
      have hp : (matchP1At (List.drop i (strLower text).data)).isSome = true := hp0
      obtain ⟨g, hg⟩ := Option.isSome_iff_exists.mp hp
      simp [hg]
  | none =>
      simp only [Option.bind_none]
      cases h2 : firstMatchIdx matchP2At ((strLower text).toList) with
      | some i =>
          rw [firstMatchIdx] at h2
          have hp0 := List.find?_some h2
          have hp : (matchP2At (List.drop i (strLower text).data)).isSome = true := hp0
          obtain ⟨g, hg⟩ := Option.isSome_iff_exists.mp hp
          simp [hg]
      | none => simp

/-! ### Referral-locator invariants -/

theorem searchProfiles_no_qm (oracle : String → Nat → List RawResult)
    (q : String) (n : Nat) :
    ∀ p ∈ searchProfiles oracle q n, '?' ∉ p.url.data := by
  intro p hp
  simp only [searchProfiles, List.mem_filterMap] at hp
  obtain ⟨r, _, hr⟩ := hp
  simp only [profileOfRaw] at hr
  split at hr
  · have hp2 := Option.some.inj hr
    subst hp2
    intro hmem
    have := List.mem_takeWhile_imp hmem
    simp at this
  · exact absurd hr (by simp)

theorem targetedStep_inv (st : List Referral × List String)
    (profiles : List Profile) (ctype : String)
    (hseen : st.2 = st.1.map (fun r => r.url))
    (hN : (st.1.map (fun r => r.url)).Nodup)
    (hq : ∀ r ∈ st.1, '?' ∉ r.url.data)
    (hlen : st.1.length ≤ 3)
    (hpq : ∀ p ∈ profiles, '?' ∉ p.url.data) :
    (targetedStep st profiles ctype).2 =
        (targetedStep st profiles ctype).1.map (fun r => r.url) ∧
    ((targetedStep st profiles ctype).1.map (fun r => r.url)).Nodup ∧
    (∀ r ∈ (targetedStep st profiles ctype).1, '?' ∉ r.url.data) ∧
    (targetedStep st profiles ctype).1.length ≤ 3 := by
  unfold targetedStep
  split
  · exact ⟨hseen, hN, hq, hlen⟩
  · rename_i hlt
    cases hfind : profiles.find? (fun p => !st.2.contains p.url) with
    | none => exact ⟨hseen, hN, hq, hlen⟩
    | some p =>
        have hpmem := List.mem_of_find?_eq_some hfind
        have hpred := List.find?_some hfind
        simp only [Bool.not_eq_true'] at hpred
        have hnotin : p.url ∉ st.1.map (fun r => r.url) := by
          intro hmem
          rw [← hseen] at hmem
          have : st.2.contains p.url = true := by
            simpa [List.contains] using List.elem_iff.mpr hmem
          rw [this] at hpred
          exact Bool.true_eq_false.mp hpred
        simp only
        refine ⟨?_, ?_, ?_, ?_⟩
        · rw [hseen, List.map_append]
          rfl
        · rw [List.map_append]
          exact List.nodup_append.mpr
            ⟨hN, List.nodup_singleton _, List.disjoint_singleton.mpr hnotin⟩
        · intro r hr
          rcases List.mem_append.mp hr with h | h
          · exact hq r h
          · have hre : r = ⟨p.name, p.title, p.url, ctype⟩ := by simpa using h
            rw [hre]
            exact hpq p hpmem
        · rw [List.length_append]
          simp only [List.length_singleton]
          omega

theorem fallbackFold_inv (profiles : List Profile) :
    ∀ (st : List Referral × List String),
      st.2 = st.1.map (fun r => r.url) →
      (st.1.map (fun r => r.url)).Nodup →
      (∀ r ∈ st.1, '?' ∉ r.url.data) →
      st.1.length ≤ 3 →
      (∀ p ∈ profiles, '?' ∉ p.url.data) →
      (fallbackFold st profiles).2 =
          (fallbackFold st profiles).1.map (fun r => r.url) ∧
      ((fallbackFold st profiles).1.map (fun r => r.url)).Nodup ∧
      (∀ r ∈ (fallbackFold st profiles).1, '?' ∉ r.url.data) ∧
      (fallbackFold st profiles).1.length ≤ 3 := by
  induction profiles with
  | nil =>
      intro st h1 h2 h3 h4 _
      exact ⟨h1, h2, h3, h4⟩
  | cons p ps ih =>
      intro st h1 h2 h3 h4 hpq
      have hstep : fallbackFold st (p :: ps) =
          fallbackFold
            (if st.1.length ≥ 3 then st
             else if st.2.contains p.url then st
             else (st.1 ++ [⟨p.name, p.title, p.url, "peer"⟩], st.2 ++ [p.url])) ps := by
        simp only [fallbackFold, List.foldl_cons]
      rw [hstep]
      have hpq' : ∀ x ∈ ps, '?' ∉ x.url.data :=
        fun x hx => hpq x (List.mem_cons_of_mem _ hx)
      by_cases hge : st.1.length ≥ 3
      · rw [if_pos hge]
        exact ih st h1 h2 h3 h4 hpq'
      · rw [if_neg hge]
        by_cases hcont : st.2.contains p.url = true
        · rw [if_pos hcont]
          exact ih st h1 h2 h3 h4 hpq'
        · rw [if_neg hcont]
          refine ih _ ?_ ?_ ?_ ?_ hpq'
          · simp only
            rw [h1, List.map_append]
            rfl
          · simp only
            rw [List.map_append]
            refine List.nodup_append.mpr
              ⟨h2, List.nodup_singleton _, List.disjoint_singleton.mpr ?_⟩
            intro hmem
            rw [← h1] at hmem
            exact hcont (by simpa [List.contains] using List.elem_iff.mpr hmem)
          · intro r hr
            rcases List.mem_append.mp hr with h | h
            · exact h3 r h
            · have hre : r = ⟨p.name, p.title, p.url, "peer"⟩ := by simpa using h
              rw [hre]
              exact hpq p (List.mem_cons_self _ _)
          · simp only [List.length_append, List.length_singleton]
            omega

/-- `find_referrals` decomposed: the accepted candidates (with
pairwise-distinct, query-free URLs, at most three of them) followed by
identical sentinel fill. -/
theorem find_referrals_decomp (company jobTitle : String)
    (oracle : String → Nat → List RawResult) :
    ∃ refs : List Referral,
      find_referrals company jobTitle oracle =
        (refs ++ List.replicate (3 - refs.length)
          (sentinelReferral company jobTitle)).take 3 ∧
      (refs.map (fun r => r.url)).Nodup ∧
      (∀ r ∈ refs, '?' ∉ r.url.data) ∧
      refs.length ≤ 3 := by
  have h0a : (([], []) : List Referral × List String).2 =
      (([], []) : List Referral × List String).1.map (fun r => r.url) := rfl
  have h0b : ((([], []) : List Referral × List String).1.map (fun r => r.url)).Nodup :=
    List.nodup_nil
  have h0c : ∀ r ∈ (([], []) : List Referral × List String).1, '?' ∉ r.url.data := by
    intro r hr; simp at hr
  have h0d : (([], []) : List Referral × List String).1.length ≤ 3 := by simp
  obtain ⟨h1a, h1b, h1c, h1d⟩ :=
    targetedStep_inv ([], []) _ "same_role" h0a h0b h0c h0d
      (searchProfiles_no_qm oracle (sameRoleQuery company jobTitle) 5)
  obtain ⟨h2a, h2b, h2c, h2d⟩ :=
    targetedStep_inv _ _ "hiring_manager" h1a h1b h1c h1d
      (searchProfiles_no_qm oracle (hiringManagerQuery company) 5)
  obtain ⟨h3a, h3b, h3c, h3d⟩ :=
    targetedStep_inv _ _ "peer" h2a h2b h2c h2d
      (searchProfiles_no_qm oracle (peerQuery company) 5)
  by_cases hfb :
      (targetedStep
        (targetedStep
          (targetedStep ([], [])
            (searchProfiles oracle (sameRoleQuery company jobTitle) 5) "same_role")
          (searchProfiles oracle (hiringManagerQuery company) 5) "hiring_manager")
        (searchProfiles oracle (peerQuery company) 5) "peer").1.length < 3
  · obtain ⟨h4a, h4b, h4c, h4d⟩ :=
      fallbackFold_inv (searchProfiles oracle (fallbackQuery company) 10) _
        h3a h3b h3c h3d
        (searchProfiles_no_qm oracle (fallbackQuery company) 10)
    refine ⟨_, ?_, h4b, h4c, h4d⟩
    simp only [find_referrals, if_pos hfb]
  · refine ⟨_, ?_, h3b, h3c, h3d⟩
    simp only [find_referrals, if_neg hfb]

theorem mem_sentinel_fill {company jobTitle : String} {n : Nat} {s : Referral}
    (hs : s ∈ List.replicate n (sentinelReferral company jobTitle)) :
    s = sentinelReferral company jobTitle :=
  (List.mem_replicate.mp hs).2

theorem sentinel_url_has_qm (company jobTitle : String) :
    '?' ∈ (sentinelReferral company jobTitle).url.data := by
  show '?' ∈ (manualSearchUrl company jobTitle).data
  unfold manualSearchUrl
  rw [String.data_append]
  exact List.mem_append_left _ (by decide)

/-- C4: for every company name, job title and profile-search behaviour,
`find_referrals` returns exactly 3 candidates; the URLs of the
non-sentinel candidates are pairwise distinct (the global
`seen_urls` dedup); and no sentinel candidate's URL equals a
non-sentinel candidate's URL (accepted profile URLs are cut at `?` and
so never equal the manually-constructed search-engine query URL). -/
theorem find_referrals_output_invariants (company jobTitle : String)
    (oracle : String → Nat → List RawResult) :
    (find_referrals company jobTitle oracle).length = 3 ∧
    (((find_referrals company jobTitle oracle).filter
        (fun r => r.name ≠ "Could not find profile")).map (fun r => r.url)).Nodup ∧
    (∀ s ∈ find_referrals company jobTitle oracle,
        s.name = "Could not find profile" →
      ∀ p ∈ find_referrals company jobTitle oracle,
        p.name ≠ "Could not find profile" →
        s.url ≠ p.url) := by
  obtain ⟨refs, hout, hN, hq, hlen⟩ := find_referrals_decomp company jobTitle oracle
  have hlen3 : (refs ++ List.replicate (3 - refs.length)
      (sentinelReferral company jobTitle)).length = 3 := by
    rw [List.length_append, List.length_replicate]
    omega
  have htake : (refs ++ List.replicate (3 - refs.length)
        (sentinelReferral company jobTitle)).take 3 =
      refs ++ List.replicate (3 - refs.length) (sentinelReferral company jobTitle) :=
    List.take_of_length_le (by rw [hlen3])
  rw [hout, htake]
  refine ⟨hlen3, ?_, ?_⟩
  · rw [List.filter_append]
    have hrep : (List.replicate (3 - refs.length)
        (sentinelReferral company jobTitle)).filter
          (fun r => r.name ≠ "Could not find profile") = [] := by
      rw [List.filter_replicate]
      simp [sentinelReferral]
    rw [hrep, List.append_nil]
    exact List.Nodup.sublist (List.Sublist.map _ (List.filter_sublist _)) hN
  · intro s hs hsname p hp hpname
    have hpmem : p ∈ refs := by
      rcases List.mem_append.mp hp with h | h
      · exact h
      · exact absurd (congrArg Referral.name (mem_sentinel_fill h)) (by simpa using hpname)
    rcases List.mem_append.mp hs with h | h
    · intro hurl
      have heq : s = p :=
        List.inj_on_of_nodup_map hN h hpmem hurl
      rw [heq] at hsname
      exact hpname hsname
    · have hsent := mem_sentinel_fill h
      intro hurl
      have hqm : '?' ∈ s.url.data := by
        rw [hsent]
        exact sentinel_url_has_qm company jobTitle
      rw [hurl] at hqm
      exact hq p hpmem hqm

/-- Closed instance of C4's theorem: one real profile accepted, two
sentinel slots; the sentinel URL differs from the accepted profile
URL. -/
theorem find_referrals_output_invariants_witness :
    (find_referrals "Acme" "Data Engineer"
      (fun _ n => if n = 5 then
        [⟨"https://www.linkedin.com/in/alexchen?trk=x", "", ""⟩] else [])).length = 3 ∧
    (find_referrals "Acme" "Data Engineer"
      (fun _ n => if n = 5 then
        [⟨"https://www.linkedin.com/in/alexchen?trk=x", "", ""⟩] else [])).get? 1 =
      some (sentinelReferral "Acme" "Data Engineer") ∧
    (sentinelReferral "Acme" "Data Engineer").url ≠
      "https://www.linkedin.com/in/alexchen" := by
  have hout : find_referrals "Acme" "Data Engineer"
      (fun _ n => if n = 5 then
        [⟨"https://www.linkedin.com/in/alexchen?trk=x", "", ""⟩] else []) =
      [{ name := "Unknown", title := "Professional",
         url := "https://www.linkedin.com/in/alexchen", connection_type := "same_role" },
       sentinelReferral "Acme" "Data Engineer",
       sentinelReferral "Acme" "Data Engineer"] := rfl
  refine ⟨by rw [hout]; rfl, by rw [hout]; rfl, ?_⟩
  intro hurl
  have h3 := (find_referrals_output_invariants "Acme" "Data Engineer"
      (fun _ n => if n = 5 then
        [⟨"https://www.linkedin.com/in/alexchen?trk=x", "", ""⟩] else [])).2.2
  refine h3 (sentinelReferral "Acme" "Data Engineer") ?_ rfl
      { name := "Unknown", title := "Professional",
        url := "https://www.linkedin.com/in/alexchen", connection_type := "same_role" }
      ?_ (by decide) hurl
  · rw [hout]
    exact List.mem_cons_of_mem _ (List.mem_cons_self _ _)
  · rw [hout]
    exact List.mem_cons_self _ _

end JobSearch
